import Mathlib

/-!
Shallow embedding of the `clap-file` crate (`src/input.rs`, `src/output.rs`).

The crate provides two mirror-image handle types:

* `Input`  — standard input or a file opened for reading, wrapped in a
  `BufReader` behind `Arc<Mutex<...>>` so the handle can be cloned while
  all clones share one descriptor and one buffer;
* `Output` — standard output or a file, wrapped in a `LineWriter` behind
  `Arc<Mutex<...>>`.

The embedding makes the shared mutable state explicit:

* a `FileSystem` value models the directory tree visible to `open(2)`;
* an `InWorld` / `OutWorld` value models the process state: the standard
  stream, its process-wide lock flag, and the heap of `Arc<Mutex<...>>`
  cells (a cell index plays the role of the `Arc` pointer identity, so
  `#[derive(Clone)]`, which clones the `Arc`s, is the identity on the
  representation);
* a `MutexCell` models `Mutex<T>` together with its poison flag; blocking
  is modelled by returning `none` when the lock is already held.

`BufReader<File>` is modelled by the remaining unread byte stream (the
split between buffered bytes and bytes still in the file is not observable
through any operation of the crate, because every clone shares the single
buffer; the buffer capacity is abstracted as unbounded).  `LineWriter<File>`
is modelled by its internal buffer plus the byte content of the underlying
file, together with the access mode of the descriptor: `File::open` yields
a read-only descriptor, so writes through it fail at the OS boundary.
-/

namespace ClapFile

/-- Kinds of OS-level I/O errors surfaced by the modelled operations
(`std::io::ErrorKind` values relevant to this crate). -/
inductive IOErr where
  | notFound
  | permissionDenied
  | isADirectory
  | unexpectedEof
  | invalidData
  | badDescriptor
  deriving DecidableEq, Repr

/-- One filesystem entry: directory flag, permission bits relevant to
`open(2)`, and the current byte content (empty for directories). -/
structure FsEntry where
  isDir : Bool
  readable : Bool
  writable : Bool
  content : List Nat
  deriving DecidableEq, Repr

/-- The directory tree visible to `open(2)`: existing entries keyed by path,
plus the set of paths whose parent directory exists and is writable, i.e.
paths at which `O_CREAT` could create a new file. -/
structure FileSystem where
  entries : List (String × FsEntry)
  creatable : List String
  deriving DecidableEq, Repr

def FileSystem.lookup (fs : FileSystem) (p : String) : Option FsEntry :=
  (fs.entries.find? (fun e => e.1 == p)).map Prod.snd

/-- Rust `File::open` (read-only mode, POSIX `open(p, O_RDONLY)`): succeeds on an
existing entry with read permission (on Linux this includes directories; a
later `read` on a directory fails, the open itself does not), yielding the
current content; fails with `NotFound` on a missing entry and
`PermissionDenied` on an unreadable one. -/
def fsOpenRead (fs : FileSystem) (p : String) : Except IOErr (List Nat) :=
  match fs.lookup p with
  | none => .error .notFound
  | some e => if e.readable then .ok e.content else .error .permissionDenied

/-- Modelled from the spec: write-mode open (`File::create`, POSIX
`open(p, O_WRONLY | O_CREAT | O_TRUNC)`).  The repository contains no
write-mode open — `Output::open` calls `File::open` — so this definition
follows the spec's words ("opens (or creates/truncates, per standard
file-open semantics) the path for writing") and exists only to be compared
against the code's behaviour. -/
def fsOpenWrite (fs : FileSystem) (p : String) : Except IOErr (List Nat) :=
  match fs.lookup p with
  | some e =>
    if e.isDir then .error .isADirectory
    else if e.writable then .ok []
    else .error .permissionDenied
  | none => if fs.creatable.contains p then .ok [] else .error .notFound

/-- Rust `Mutex<T>` together with its poison flag.  `locked = true` means some
guard is currently alive. -/
structure MutexCell (σ : Type) where
  locked : Bool
  poisoned : Bool
  data : σ
  deriving DecidableEq, Repr

/-- Rust `std::sync::PoisonError`: carries the guard (the data) so the caller can
recover it with `into_inner`. -/
structure PoisonError (σ : Type) where
  inner : σ

/-- Rust `Mutex::lock`: blocks (`none`) while the lock is held; once acquired,
returns `Err(PoisonError)` carrying the guard if a previous holder panicked,
`Ok(guard)` otherwise.  The poison flag itself is not cleared. -/
def Mutex.lockRaw {σ : Type} (m : MutexCell σ) :
    Option (MutexCell σ × Except (PoisonError σ) σ) :=
  if m.locked then none
  else some ({ m with locked := true },
             if m.poisoned then .error ⟨m.data⟩ else .ok m.data)

/-- The `lock` helper shared by `input.rs` and `output.rs`:
`mutex.lock().unwrap_or_else(|e| e.into_inner())` — the poison error is
unwrapped into the guard it carries, so the caller always gets the data. -/
def lock {σ : Type} (m : MutexCell σ) : Option (MutexCell σ × σ) :=
  (Mutex.lockRaw m).map
    (fun r => (r.1, match r.2 with | .ok g => g | .error e => e.inner))

/-- Rust `BufReader<File>` state: the remaining unread bytes of the stream. -/
abbrev ReaderState := List Nat

/-- Rust `LineWriter<File>` state: the descriptor's access mode (`File::open`
yields a read-only descriptor, on which every OS-level write fails with
`EBADF`), the bytes buffered but not yet written through, and the bytes the
underlying file has received. -/
structure LineWriterState where
  writable : Bool
  buf : List Nat
  file : List Nat
  deriving DecidableEq, Repr

/-- Index of the last newline byte (`0x0A`) in a byte list, if any. -/
def lastNewlinePos : List Nat → Option Nat
  | [] => none
  | b :: rest =>
    match lastNewlinePos rest with
    | some i => some (i + 1)
    | none => if b = 10 then some 0 else none

/-- Rust `LineWriter::write`: if the data contains a newline, flush the buffer
and write everything up to and including the last newline through to the
file, buffering the tail — which fails with `EBADF` (leaving the state
unchanged) on a read-only descriptor; if the data has no
newline it is only buffered (buffer capacity abstracted as unbounded), which
never touches the OS and so succeeds even on a read-only descriptor.
Returns the number of bytes consumed. -/
def lwWrite (st : LineWriterState) (d : List Nat) :
    Except IOErr Nat × LineWriterState :=
  match lastNewlinePos d with
  | none => (.ok d.length, { st with buf := st.buf ++ d })
  | some i =>
    if st.writable then
      (.ok d.length,
       ⟨st.writable, d.drop (i + 1), st.file ++ st.buf ++ d.take (i + 1)⟩)
    else (.error .badDescriptor, st)

/-- Rust `LineWriter::flush`: write any buffered bytes through to the file.  With
an empty buffer no OS write is issued, so it succeeds even on a read-only
descriptor. -/
def lwFlush (st : LineWriterState) : Except IOErr Unit × LineWriterState :=
  if st.buf = [] then (.ok (), st)
  else if st.writable then (.ok (), ⟨st.writable, [], st.file ++ st.buf⟩)
  else (.error .badDescriptor, st)

/-! ## The Input handle (`src/input.rs`) -/

/-- Rust `enum InputInner { Stdin, File { path, reader } }`: the `Arc<PathBuf>`
is the path string, the `Arc<Mutex<BufReader<File>>>` is the index of its
cell in the world's heap. -/
inductive InputInner where
  | stdin
  | file (path : String) (reader : Nat)
  deriving DecidableEq, Repr

/-- Rust `pub struct Input(InputInner)`. -/
structure Input where
  inner : InputInner
  deriving DecidableEq, Repr

/-- Process state on the read side: remaining bytes of standard input, the
process-wide `StdinLock` flag, and the heap of `Arc<Mutex<BufReader<File>>>`
cells. -/
structure InWorld where
  stdin : List Nat
  stdinLocked : Bool
  cells : List (MutexCell ReaderState)
  deriving DecidableEq, Repr

def InWorld.getCell (w : InWorld) (c : Nat) : Option (MutexCell ReaderState) :=
  w.cells[c]?

def InWorld.setCell (w : InWorld) (c : Nat) (m : MutexCell ReaderState) :
    InWorld :=
  { w with cells := w.cells.set c m }

/-- Rust `Input::stdin()`. -/
def Input.stdin : Input := ⟨InputInner.stdin⟩

/-- Rust `Input::open(path)`: `File::open` the path (read mode), then allocate a
fresh `Arc<Mutex<BufReader<File>>>` cell holding the new reader.  The cell
index is the length of the heap, i.e. a genuinely fresh allocation. -/
def Input.openFile (fs : FileSystem) (w : InWorld) (p : String) :
    Except IOErr (Input × InWorld) :=
  match fsOpenRead fs p with
  | .error e => .error e
  | .ok content =>
    .ok (⟨.file p w.cells.length⟩,
         { w with cells := w.cells ++ [⟨false, false, content⟩] })

/-- Rust `Input::is_stdin`. -/
def Input.is_stdin (h : Input) : Bool :=
  match h.inner with
  | .stdin => true
  | .file _ _ => false

/-- Rust `Input::is_file`. -/
def Input.is_file (h : Input) : Bool :=
  match h.inner with
  | .stdin => false
  | .file _ _ => true

/-- Rust `Input::path`. -/
def Input.path (h : Input) : Option String :=
  match h.inner with
  | .stdin => none
  | .file p _ => some p

/-- Rust `#[derive(Clone)]` on `Input`/`InputInner`: clones the `Arc`s, which
copies the pointers — in the embedding, the same path string and the same
cell index.  No world is touched: no descriptor is opened, no cell is
allocated, no buffered byte is copied. -/
def Input.clone (h : Input) : Input :=
  match h.inner with
  | .stdin => ⟨.stdin⟩
  | .file p c => ⟨.file p c⟩

/-- Rust `<Input as FromStr>::from_str`: `"-"` maps to `Input::stdin()` without
touching the filesystem; anything else is delegated to `Input::open`. -/
def Input.from_str (fs : FileSystem) (w : InWorld) (s : String) :
    Except IOErr (Input × InWorld) :=
  if s = "-" then .ok (Input.stdin, w)
  else Input.openFile fs w s

/-- Rust `enum LockedInputInner`: the guard returned by `Input::lock` — either
the process `StdinLock` or the path plus the `MutexGuard` over the shared
reader cell. -/
inductive LockedInputInner where
  | stdin
  | file (path : String) (reader : Nat)
  deriving DecidableEq, Repr

/-- Rust `pub struct LockedInput(LockedInputInner)`. -/
structure LockedInput where
  inner : LockedInputInner
  deriving DecidableEq, Repr

/-- Rust `Input::lock`: for `Stdin`, take the process-wide stdin lock (blocking —
`none` — if held); for `File`, acquire the cell's mutex through the
poison-recovering `lock` helper. -/
def Input.lock (w : InWorld) (h : Input) : Option (InWorld × LockedInput) :=
  match h.inner with
  | .stdin =>
    if w.stdinLocked then none
    else some ({ w with stdinLocked := true }, ⟨.stdin⟩)
  | .file p c =>
    match w.getCell c with
    | none => none
    | some m =>
      match ClapFile.lock m with
      | none => none
      | some (m', _) => some (w.setCell c m', ⟨.file p c⟩)

/-- Rust `LockedInput::is_stdin`. -/
def LockedInput.is_stdin (g : LockedInput) : Bool :=
  match g.inner with
  | .stdin => true
  | .file _ _ => false

/-- Rust `LockedInput::is_file`. -/
def LockedInput.is_file (g : LockedInput) : Bool :=
  match g.inner with
  | .stdin => false
  | .file _ _ => true

/-- Rust `LockedInput::path`. -/
def LockedInput.path (g : LockedInput) : Option String :=
  match g.inner with
  | .stdin => none
  | .file p _ => some p

/-- Dropping a `LockedInput`: releases the `StdinLock` or the `MutexGuard`. -/
def LockedInput.drop (w : InWorld) (g : LockedInput) : InWorld :=
  match g.inner with
  | .stdin => { w with stdinLocked := false }
  | .file _ c =>
    match w.getCell c with
    | none => w
    | some m => w.setCell c { m with locked := false }

/-! ## The Output handle (`src/output.rs`) -/

/-- Rust `enum OutputInner { Stdout, File { path, writer } }`. -/
inductive OutputInner where
  | stdout
  | file (path : String) (writer : Nat)
  deriving DecidableEq, Repr

/-- Rust `pub struct Output(OutputInner)`. -/
structure Output where
  inner : OutputInner
  deriving DecidableEq, Repr

/-- Process state on the write side: the process standard-output
`LineWriter` state, the process-wide `StdoutLock` flag, and the heap of
`Arc<Mutex<LineWriter<File>>>` cells. -/
structure OutWorld where
  stdoutLw : LineWriterState
  stdoutLocked : Bool
  cells : List (MutexCell LineWriterState)
  deriving DecidableEq, Repr

def OutWorld.getCell (w : OutWorld) (c : Nat) :
    Option (MutexCell LineWriterState) :=
  w.cells[c]?

def OutWorld.setCell (w : OutWorld) (c : Nat) (m : MutexCell LineWriterState) :
    OutWorld :=
  { w with cells := w.cells.set c m }

/-- Rust `Output::stdout()`. -/
def Output.stdout : Output := ⟨OutputInner.stdout⟩

/-- Rust `Output::open(path)`: the source calls `File::open(&*path)` — the
READ-mode open, not `File::create` — and wraps the resulting descriptor in
`LineWriter::new`.  Hence the model opens with `fsOpenRead`: the existing
content is not truncated and the fresh cell's descriptor is read-only
(`writable := false`). -/
def Output.openFile (fs : FileSystem) (w : OutWorld) (p : String) :
    Except IOErr (Output × OutWorld) :=
  match fsOpenRead fs p with
  | .error e => .error e
  | .ok content =>
    .ok (⟨.file p w.cells.length⟩,
         { w with cells := w.cells ++ [⟨false, false, ⟨false, [], content⟩⟩] })

/-- Rust `Output::is_stdout`. -/
def Output.is_stdout (h : Output) : Bool :=
  match h.inner with
  | .stdout => true
  | .file _ _ => false

/-- Rust `Output::is_file`. -/
def Output.is_file (h : Output) : Bool :=
  match h.inner with
  | .stdout => false
  | .file _ _ => true

/-- Rust `Output::path`. -/
def Output.path (h : Output) : Option String :=
  match h.inner with
  | .stdout => none
  | .file p _ => some p

/-- Rust `#[derive(Clone)]` on `Output`/`OutputInner`: clones the `Arc`s — same
path string, same cell index, no new descriptor, no copied buffer. -/
def Output.clone (h : Output) : Output :=
  match h.inner with
  | .stdout => ⟨.stdout⟩
  | .file p c => ⟨.file p c⟩

/-- Rust `<Output as FromStr>::from_str`: `"-"` maps to `Output::stdout()`
without touching the filesystem; anything else is delegated to
`Output::open`. -/
def Output.from_str (fs : FileSystem) (w : OutWorld) (s : String) :
    Except IOErr (Output × OutWorld) :=
  if s = "-" then .ok (Output.stdout, w)
  else Output.openFile fs w s

/-- Rust `enum LockedOutputInner`: the guard returned by `Output::lock`. -/
inductive LockedOutputInner where
  | stdout
  | file (path : String) (writer : Nat)
  deriving DecidableEq, Repr

/-- Rust `pub struct LockedOutput(LockedOutputInner)`. -/
structure LockedOutput where
  inner : LockedOutputInner
  deriving DecidableEq, Repr

/-- Rust `Output::lock`: for `Stdout`, take the process-wide stdout lock
(blocking — `none` — if held); for `File`, acquire the cell's mutex through
the poison-recovering `lock` helper. -/
def Output.lock (w : OutWorld) (h : Output) : Option (OutWorld × LockedOutput) :=
  match h.inner with
  | .stdout =>
    if w.stdoutLocked then none
    else some ({ w with stdoutLocked := true }, ⟨.stdout⟩)
  | .file p c =>
    match w.getCell c with
    | none => none
    | some m =>
      match ClapFile.lock m with
      | none => none
      | some (m', _) => some (w.setCell c m', ⟨.file p c⟩)

/-- Rust `LockedOutput::is_stdin` — the source really names this accessor
`is_stdin` even though it tests for the `Stdout` variant. -/
def LockedOutput.is_stdin (g : LockedOutput) : Bool :=
  match g.inner with
  | .stdout => true
  | .file _ _ => false

/-- Rust `LockedOutput::is_file`. -/
def LockedOutput.is_file (g : LockedOutput) : Bool :=
  match g.inner with
  | .stdout => false
  | .file _ _ => true

/-- Rust `LockedOutput::path`. -/
def LockedOutput.path (g : LockedOutput) : Option String :=
  match g.inner with
  | .stdout => none
  | .file p _ => some p

/-- Dropping a `LockedOutput`: releases the `StdoutLock` or the
`MutexGuard`. -/
def LockedOutput.drop (w : OutWorld) (g : LockedOutput) : OutWorld :=
  match g.inner with
  | .stdout => { w with stdoutLocked := false }
  | .file _ c =>
    match w.getCell c with
    | none => w
    | some m => w.setCell c { m with locked := false }

/-! ## Read/write operation bodies

Each Rust I/O method body is a pure state transformer on the underlying
reader/writer state; the same body is invoked by the unlocked handle
(through the lock-per-call macros) and by the guard, exactly as in the
source, where both expand to `r.read(..)` / `writer.write(..)` on the same
underlying value. -/

/-- Whether a byte is a UTF-8 continuation byte (`0x80..=0xBF`). -/
def isCont (b : Nat) : Bool := decide (0x80 ≤ b) && decide (b ≤ 0xBF)

/-- Strict UTF-8 validity of a byte sequence (RFC 3629 table, as enforced by
Rust's `str::from_utf8` inside `read_to_string`). -/
def utf8Valid : List Nat → Bool
  | [] => true
  | b :: rest =>
    if b ≤ 0x7F then utf8Valid rest
    else if 0xC2 ≤ b ∧ b ≤ 0xDF then
      match rest with
      | b1 :: rest' => isCont b1 && utf8Valid rest'
      | [] => false
    else if b = 0xE0 then
      match rest with
      | b1 :: b2 :: rest' =>
        (decide (0xA0 ≤ b1) && decide (b1 ≤ 0xBF)) && isCont b2 &&
          utf8Valid rest'
      | _ => false
    else if (0xE1 ≤ b ∧ b ≤ 0xEC) ∨ (0xEE ≤ b ∧ b ≤ 0xEF) then
      match rest with
      | b1 :: b2 :: rest' => isCont b1 && isCont b2 && utf8Valid rest'
      | _ => false
    else if b = 0xED then
      match rest with
      | b1 :: b2 :: rest' =>
        (decide (0x80 ≤ b1) && decide (b1 ≤ 0x9F)) && isCont b2 &&
          utf8Valid rest'
      | _ => false
    else if b = 0xF0 then
      match rest with
      | b1 :: b2 :: b3 :: rest' =>
        (decide (0x90 ≤ b1) && decide (b1 ≤ 0xBF)) && isCont b2 &&
          isCont b3 && utf8Valid rest'
      | _ => false
    else if 0xF1 ≤ b ∧ b ≤ 0xF3 then
      match rest with
      | b1 :: b2 :: b3 :: rest' =>
        isCont b1 && isCont b2 && isCont b3 && utf8Valid rest'
      | _ => false
    else if b = 0xF4 then
      match rest with
      | b1 :: b2 :: b3 :: rest' =>
        (decide (0x80 ≤ b1) && decide (b1 ≤ 0x8F)) && isCont b2 &&
          isCont b3 && utf8Valid rest'
      | _ => false
    else false

/-- Rust `Read::read` with an `n`-byte destination buffer: yields the next (at
most) `n` bytes of the stream.  The model returns the bytes themselves; the
Rust return value is their count. -/
def readCore (n : Nat) (data : ReaderState) : List Nat × ReaderState :=
  (data.take n, data.drop n)

/-- Rust `Read::read_vectored` with destination buffers of the given sizes:
behaves as a single read of the total size. -/
def readVectoredCore (ns : List Nat) (data : ReaderState) :
    List Nat × ReaderState :=
  readCore ns.sum data

/-- Rust `Read::read_to_end`: consumes and returns the whole remaining stream. -/
def readToEndCore (data : ReaderState) : List Nat × ReaderState :=
  (data, [])

/-- Rust `Read::read_to_string`: reads the whole remaining stream and validates
it as UTF-8, failing with `InvalidData` otherwise. -/
def readToStringCore (data : ReaderState) :
    Except IOErr (List Nat) × ReaderState :=
  if utf8Valid data then (.ok data, []) else (.error .invalidData, [])

/-- Rust `Read::read_exact` with an `n`-byte destination: fails with
`UnexpectedEof` (having consumed the stream) if fewer than `n` bytes
remain. -/
def readExactCore (n : Nat) (data : ReaderState) :
    Except IOErr (List Nat) × ReaderState :=
  if n ≤ data.length then (.ok (data.take n), data.drop n)
  else (.error .unexpectedEof, [])

/-- Rust `Write::write` on a `LineWriter`. -/
def writeCore (d : List Nat) (st : LineWriterState) :
    Except IOErr Nat × LineWriterState :=
  lwWrite st d

/-- Rust `Write::write_vectored` on a `LineWriter`: modelled as a single write of
the concatenation of the buffers. -/
def writeVectoredCore (bufs : List (List Nat)) (st : LineWriterState) :
    Except IOErr Nat × LineWriterState :=
  lwWrite st bufs.flatten

/-- Rust `Write::write_all` on a `LineWriter`: with the buffer capacity
abstracted as unbounded a single `write` consumes everything, so this is
`write` with the count discarded. -/
def writeAllCore (d : List Nat) (st : LineWriterState) :
    Except IOErr Unit × LineWriterState :=
  let (r, st') := lwWrite st d
  (r.map (fun _ => ()), st')

/-- Rust `Write::flush` on a `LineWriter`. -/
def flushCore (st : LineWriterState) : Except IOErr Unit × LineWriterState :=
  lwFlush st

/-! ## Lock-per-call operations on the unlocked handles

`impl Read for Input` and `impl Write for Output` route every call through
the `with_reader!` / `with_writer!` macros: for the stream variant a fresh
`io::stdin()` / `io::stdout()` handle is used, whose own `Read`/`Write`
impl takes the process-wide lock for the duration of the call; for the file
variant the cell's mutex is acquired through the poison-recovering `lock`
helper and the guard is dropped when the call returns. -/

/-- The `with_reader!` macro of `input.rs` applied to operation body `f`. -/
def Input.withReader {α : Type} (w : InWorld) (h : Input)
    (f : ReaderState → α × ReaderState) : Option (InWorld × α) :=
  match h.inner with
  | .stdin =>
    if w.stdinLocked then none
    else
      let (a, rest) := f w.stdin
      some ({ w with stdin := rest }, a)
  | .file _ c =>
    match w.getCell c with
    | none => none
    | some m =>
      match ClapFile.lock m with
      | none => none
      | some (m', g) =>
        let (a, rest) := f g
        some (w.setCell c { m' with locked := false, data := rest }, a)

/-- Rust `<Input as Read>::read`. -/
def Input.read (w : InWorld) (h : Input) (n : Nat) :
    Option (InWorld × List Nat) :=
  Input.withReader w h (readCore n)

/-- Rust `<Input as Read>::read_vectored`. -/
def Input.read_vectored (w : InWorld) (h : Input) (ns : List Nat) :
    Option (InWorld × List Nat) :=
  Input.withReader w h (readVectoredCore ns)

/-- Rust `<Input as Read>::read_to_end`. -/
def Input.read_to_end (w : InWorld) (h : Input) :
    Option (InWorld × List Nat) :=
  Input.withReader w h readToEndCore

/-- Rust `<Input as Read>::read_to_string`. -/
def Input.read_to_string (w : InWorld) (h : Input) :
    Option (InWorld × Except IOErr (List Nat)) :=
  Input.withReader w h readToStringCore

/-- Rust `<Input as Read>::read_exact`. -/
def Input.read_exact (w : InWorld) (h : Input) (n : Nat) :
    Option (InWorld × Except IOErr (List Nat)) :=
  Input.withReader w h (readExactCore n)

/-- The `with_locked_reader!` macro of `input.rs`: a guard operates directly
on the state it protects (`none` only on a dangling cell index, which no
guard produced by `Input::lock` can carry). -/
def LockedInput.withReader {α : Type} (w : InWorld) (g : LockedInput)
    (f : ReaderState → α × ReaderState) : Option (InWorld × α) :=
  match g.inner with
  | .stdin =>
    let (a, rest) := f w.stdin
    some ({ w with stdin := rest }, a)
  | .file _ c =>
    match w.getCell c with
    | none => none
    | some m =>
      let (a, rest) := f m.data
      some (w.setCell c { m with data := rest }, a)

/-- Rust `<LockedInput as Read>::read`. -/
def LockedInput.read (w : InWorld) (g : LockedInput) (n : Nat) :
    Option (InWorld × List Nat) :=
  LockedInput.withReader w g (readCore n)

/-- Rust `<LockedInput as Read>::read_vectored`. -/
def LockedInput.read_vectored (w : InWorld) (g : LockedInput) (ns : List Nat) :
    Option (InWorld × List Nat) :=
  LockedInput.withReader w g (readVectoredCore ns)

/-- Rust `<LockedInput as Read>::read_to_end`. -/
def LockedInput.read_to_end (w : InWorld) (g : LockedInput) :
    Option (InWorld × List Nat) :=
  LockedInput.withReader w g readToEndCore

/-- Rust `<LockedInput as Read>::read_to_string`. -/
def LockedInput.read_to_string (w : InWorld) (g : LockedInput) :
    Option (InWorld × Except IOErr (List Nat)) :=
  LockedInput.withReader w g readToStringCore

/-- Rust `<LockedInput as Read>::read_exact`. -/
def LockedInput.read_exact (w : InWorld) (g : LockedInput) (n : Nat) :
    Option (InWorld × Except IOErr (List Nat)) :=
  LockedInput.withReader w g (readExactCore n)

/-- The `with_writer!` macro of `output.rs` applied to operation body `f`. -/
def Output.withWriter {α : Type} (w : OutWorld) (h : Output)
    (f : LineWriterState → α × LineWriterState) : Option (OutWorld × α) :=
  match h.inner with
  | .stdout =>
    if w.stdoutLocked then none
    else
      let (a, st) := f w.stdoutLw
      some ({ w with stdoutLw := st }, a)
  | .file _ c =>
    match w.getCell c with
    | none => none
    | some m =>
      match ClapFile.lock m with
      | none => none
      | some (m', g) =>
        let (a, st) := f g
        some (w.setCell c { m' with locked := false, data := st }, a)

/-- Rust `<Output as Write>::write`. -/
def Output.write (w : OutWorld) (h : Output) (d : List Nat) :
    Option (OutWorld × Except IOErr Nat) :=
  Output.withWriter w h (writeCore d)

/-- Rust `<Output as Write>::write_vectored`. -/
def Output.write_vectored (w : OutWorld) (h : Output) (bufs : List (List Nat)) :
    Option (OutWorld × Except IOErr Nat) :=
  Output.withWriter w h (writeVectoredCore bufs)

/-- Rust `<Output as Write>::write_all`. -/
def Output.write_all (w : OutWorld) (h : Output) (d : List Nat) :
    Option (OutWorld × Except IOErr Unit) :=
  Output.withWriter w h (writeAllCore d)

/-- Rust `<Output as Write>::flush`. -/
def Output.flush (w : OutWorld) (h : Output) :
    Option (OutWorld × Except IOErr Unit) :=
  Output.withWriter w h flushCore

/-- The `with_locked_writer!` macro of `output.rs`. -/
def LockedOutput.withWriter {α : Type} (w : OutWorld) (g : LockedOutput)
    (f : LineWriterState → α × LineWriterState) : Option (OutWorld × α) :=
  match g.inner with
  | .stdout =>
    let (a, st) := f w.stdoutLw
    some ({ w with stdoutLw := st }, a)
  | .file _ c =>
    match w.getCell c with
    | none => none
    | some m =>
      let (a, st) := f m.data
      some (w.setCell c { m with data := st }, a)

/-- Rust `<LockedOutput as Write>::write`. -/
def LockedOutput.write (w : OutWorld) (g : LockedOutput) (d : List Nat) :
    Option (OutWorld × Except IOErr Nat) :=
  LockedOutput.withWriter w g (writeCore d)

/-- Rust `<LockedOutput as Write>::write_vectored`. -/
def LockedOutput.write_vectored (w : OutWorld) (g : LockedOutput)
    (bufs : List (List Nat)) : Option (OutWorld × Except IOErr Nat) :=
  LockedOutput.withWriter w g (writeVectoredCore bufs)

/-- Rust `<LockedOutput as Write>::write_all`. -/
def LockedOutput.write_all (w : OutWorld) (g : LockedOutput) (d : List Nat) :
    Option (OutWorld × Except IOErr Unit) :=
  LockedOutput.withWriter w g (writeAllCore d)

/-- Rust `<LockedOutput as Write>::flush`. -/
def LockedOutput.flush (w : OutWorld) (g : LockedOutput) :
    Option (OutWorld × Except IOErr Unit) :=
  LockedOutput.withWriter w g flushCore

/-! ## Helper lemmas -/

/-- The poison-recovering `lock` helper always yields the intact data once
the mutex is free, whether or not the poison flag is set. -/
theorem lock_of_unlocked {σ : Type} (m : MutexCell σ) (hm : m.locked = false) :
    lock m = some ({ m with locked := true }, m.data) := by
  cases hp : m.poisoned <;> simp [lock, Mutex.lockRaw, hm, hp]

/-- The poison-recovering `lock` helper blocks while the mutex is held. -/
theorem lock_of_locked {σ : Type} (m : MutexCell σ) (hm : m.locked = true) :
    lock m = none := by
  simp [lock, Mutex.lockRaw, hm]

theorem list_getElem?_set_self {β : Type} (l : List β) (c : Nat) (a : β)
    (h : c < l.length) : (l.set c a)[c]? = some a := by
  simp [List.getElem?_set_self, h]

theorem list_set_set {β : Type} (l : List β) (c : Nat) (a b : β) :
    (l.set c a).set c b = l.set c b := by
  simp [List.set_set]

theorem lt_length_of_getq {β : Type} (l : List β) (c : Nat) (m : β)
    (h : l[c]? = some m) : c < l.length := by
  by_contra hc
  simp [List.getElem?_eq_none (Nat.le_of_not_lt hc)] at h

theorem inworld_getCell_setCell (w : InWorld) (c : Nat)
    (m m0 : MutexCell ReaderState) (hc : w.getCell c = some m0) :
    (w.setCell c m).getCell c = some m :=
  list_getElem?_set_self _ _ _ (lt_length_of_getq _ _ _ hc)

theorem inworld_setCell_setCell (w : InWorld) (c : Nat)
    (m m' : MutexCell ReaderState) :
    (w.setCell c m).setCell c m' = w.setCell c m' := by
  simp [InWorld.setCell, list_set_set]

theorem outworld_getCell_setCell (w : OutWorld) (c : Nat)
    (m m0 : MutexCell LineWriterState) (hc : w.getCell c = some m0) :
    (w.setCell c m).getCell c = some m :=
  list_getElem?_set_self _ _ _ (lt_length_of_getq _ _ _ hc)

theorem outworld_setCell_setCell (w : OutWorld) (c : Nat)
    (m m' : MutexCell LineWriterState) :
    (w.setCell c m).setCell c m' = w.setCell c m' := by
  simp [OutWorld.setCell, list_set_set]

/-- The lock/operate/drop composition on the read side: `h.lock()`, run the
given guard operation, drop the guard (releasing the lock). -/
def Input.viaLock {α : Type} (w : InWorld) (h : Input)
    (guardOp : InWorld → LockedInput → Option (InWorld × α)) :
    Option (InWorld × α) :=
  match Input.lock w h with
  | none => none
  | some (w1, g) =>
    match guardOp w1 g with
    | none => none
    | some (w2, a) => some (LockedInput.drop w2 g, a)

/-- The lock/operate/drop composition on the write side. -/
def Output.viaLock {α : Type} (w : OutWorld) (h : Output)
    (guardOp : OutWorld → LockedOutput → Option (OutWorld × α)) :
    Option (OutWorld × α) :=
  match Output.lock w h with
  | none => none
  | some (w1, g) =>
    match guardOp w1 g with
    | none => none
    | some (w2, a) => some (LockedOutput.drop w2 g, a)

/-- Any operation body run by the lock-per-call macro on an unlocked handle
is the same as locking, running it through the guard, and dropping the
guard, with the same resulting process state. -/
theorem withReader_eq_viaLock {α : Type} (w : InWorld) (h : Input)
    (f : ReaderState → α × ReaderState) :
    Input.withReader w h f =
      Input.viaLock w h (fun w1 g => LockedInput.withReader w1 g f) := by
  obtain ⟨ii⟩ := h
  cases ii with
  | stdin =>
    cases hL : w.stdinLocked with
    | true => simp [Input.lock, Input.withReader, Input.viaLock, hL]
    | false =>
      rcases hf : f w.stdin with ⟨a, rest⟩
      simp [Input.lock, Input.withReader, Input.viaLock,
            LockedInput.withReader, LockedInput.drop, hL, hf]
  | file p c =>
    rcases hc : w.getCell c with _ | m
    · simp [Input.lock, Input.withReader, Input.viaLock, hc]
    · cases hm : m.locked with
      | true =>
        simp [Input.lock, Input.withReader, Input.viaLock, hc,
              lock_of_locked m hm]
      | false =>
        rcases hf : f m.data with ⟨a, rest⟩
        have h1 := inworld_getCell_setCell w c { m with locked := true } m hc
        simp [Input.lock, Input.withReader, Input.viaLock,
              LockedInput.withReader, LockedInput.drop, hc,
              lock_of_unlocked m hm, hf, h1,
              inworld_getCell_setCell, inworld_setCell_setCell]

/-- Write-side analogue of `withReader_eq_viaLock`. -/
theorem withWriter_eq_viaLock {α : Type} (w : OutWorld) (h : Output)
    (f : LineWriterState → α × LineWriterState) :
    Output.withWriter w h f =
      Output.viaLock w h (fun w1 g => LockedOutput.withWriter w1 g f) := by
  obtain ⟨oi⟩ := h
  cases oi with
  | stdout =>
    cases hL : w.stdoutLocked with
    | true => simp [Output.lock, Output.withWriter, Output.viaLock, hL]
    | false =>
      rcases hf : f w.stdoutLw with ⟨a, st⟩
      simp [Output.lock, Output.withWriter, Output.viaLock,
            LockedOutput.withWriter, LockedOutput.drop, hL, hf]
  | file p c =>
    rcases hc : w.getCell c with _ | m
    · simp [Output.lock, Output.withWriter, Output.viaLock, hc]
    · cases hm : m.locked with
      | true =>
        simp [Output.lock, Output.withWriter, Output.viaLock, hc,
              lock_of_locked m hm]
      | false =>
        rcases hf : f m.data with ⟨a, st⟩
        have h1 := outworld_getCell_setCell w c { m with locked := true } m hc
        simp [Output.lock, Output.withWriter, Output.viaLock,
              LockedOutput.withWriter, LockedOutput.drop, hc,
              lock_of_unlocked m hm, hf, h1,
              outworld_getCell_setCell, outworld_setCell_setCell]

/-! ## Claim theorems -/

/-- Concrete process states used by the witnesses. -/
def wI0 : InWorld := ⟨[], false, []⟩

def wO0 : OutWorld := ⟨⟨true, [], []⟩, false, []⟩

/-- C2: parsing the exact string `"-"` yields the stream variant for both
`Input` and `Output`: the handle reports `is_stdin`/`is_stdout`, its `path`
is `none`, and the world is returned unchanged — no file open is attempted. -/
theorem c2_from_str_dash (fs : FileSystem) (wi : InWorld) (wo : OutWorld) :
    Input.from_str fs wi "-" = .ok (Input.stdin, wi) ∧
    Input.stdin.is_stdin = true ∧ Input.stdin.path = none ∧
    Output.from_str fs wo "-" = .ok (Output.stdout, wo) ∧
    Output.stdout.is_stdout = true ∧ Output.stdout.path = none := by
  refine ⟨?_, rfl, rfl, ?_, rfl, rfl⟩ <;>
    simp [Input.from_str, Output.from_str]

/-- C3: for any string `p` other than `"-"` that names an existing readable
file, `from_str` succeeds with the file variant and stores exactly the
argument as the path. -/
theorem c3_from_str_file (fs : FileSystem) (w : InWorld) (p : String)
    (e : FsEntry) (hne : p ≠ "-") (hl : fs.lookup p = some e)
    (hr : e.readable = true) :
    ∃ h w', Input.from_str fs w p = .ok (h, w') ∧
      h.is_file = true ∧ h.path = some p := by
  refine ⟨⟨.file p w.cells.length⟩,
    { w with cells := w.cells ++ [⟨false, false, e.content⟩] }, ?_, rfl, rfl⟩
  simp [Input.from_str, hne, Input.openFile, fsOpenRead, hl, hr]

def fsA : FileSystem := ⟨[("a.txt", ⟨false, true, true, [97]⟩)], []⟩

theorem c3_witness :
    ∃ h w', Input.from_str fsA wI0 "a.txt" = .ok (h, w') ∧
      h.is_file = true ∧ h.path = some "a.txt" :=
  c3_from_str_file fsA wI0 "a.txt" ⟨false, true, true, [97]⟩
    (by decide) (by rfl) rfl

/-- C10: every handle is exactly one of the stream and the file variant,
`path` is `some` exactly on the file variant, and duplication (`clone`)
preserves the handle unchanged. -/
theorem c10_variant_invariant (hi : Input) (ho : Output) :
    hi.is_stdin = !hi.is_file ∧ hi.path.isSome = hi.is_file ∧
    Input.clone hi = hi ∧
    ho.is_stdout = !ho.is_file ∧ ho.path.isSome = ho.is_file ∧
    Output.clone ho = ho := by
  obtain ⟨ii⟩ := hi
  obtain ⟨oi⟩ := ho
  cases ii <;> cases oi <;>
    simp [Input.is_stdin, Input.is_file, Input.path, Input.clone,
          Output.is_stdout, Output.is_file, Output.path, Output.clone]

/-- C5: cloning a handle is the identity on its representation — the same
shared path and the same shared cell index, with no world interaction (the
type of `clone` admits no descriptor opening or buffer copying) — so every
operation performed through a duplicate acts on the very state the original
observes. -/
theorem c5_clone_shares_state (hi : Input) (ho : Output) (wi : InWorld)
    (wo : OutWorld) (n : Nat) (d : List Nat) :
    Input.clone hi = hi ∧ Output.clone ho = ho ∧
    (Input.clone hi).path = hi.path ∧ (Output.clone ho).path = ho.path ∧
    Input.read wi (Input.clone hi) n = Input.read wi hi n ∧
    Output.write wo (Output.clone ho) d = Output.write wo ho d ∧
    Input.lock wi (Input.clone hi) = Input.lock wi hi ∧
    Output.lock wo (Output.clone ho) = Output.lock wo ho := by
  obtain ⟨ii⟩ := hi
  obtain ⟨oi⟩ := ho
  cases ii <;> cases oi <;> simp [Input.clone, Output.clone]

/-- C4: `lock()` never fails: once the mutex is free, the poison-recovering
helper — and hence `Input::lock`/`Output::lock` on any clone of the handle —
yields a guard over the intact data whatever the poison flag left by a
previous holder's abnormal termination says. -/
theorem c4_lock_recovers_poison :
    (∀ (σ : Type) (m : MutexCell σ), m.locked = false →
      lock m = some ({ m with locked := true }, m.data)) ∧
    (∀ (w : InWorld) (p : String) (c : Nat) (m : MutexCell ReaderState),
      w.getCell c = some m → m.locked = false →
      Input.lock w (Input.clone ⟨.file p c⟩) =
        some (w.setCell c { m with locked := true }, ⟨.file p c⟩)) ∧
    (∀ (w : OutWorld) (p : String) (c : Nat) (m : MutexCell LineWriterState),
      w.getCell c = some m → m.locked = false →
      Output.lock w (Output.clone ⟨.file p c⟩) =
        some (w.setCell c { m with locked := true }, ⟨.file p c⟩)) := by
  refine ⟨fun σ m hm => lock_of_unlocked m hm, ?_, ?_⟩
  · intro w p c m hc hm
    simp [Input.clone, Input.lock, hc, lock_of_unlocked m hm]
  · intro w p c m hc hm
    simp [Output.clone, Output.lock, hc, lock_of_unlocked m hm]

def mPoisonedIn : MutexCell ReaderState := ⟨false, true, [1, 2, 3]⟩

def wPoisonedIn : InWorld := ⟨[], false, [mPoisonedIn]⟩

theorem c4_witness :
    lock mPoisonedIn = some ({ mPoisonedIn with locked := true },
      mPoisonedIn.data) ∧
    Input.lock wPoisonedIn (Input.clone ⟨.file "f" 0⟩) =
      some (wPoisonedIn.setCell 0 { mPoisonedIn with locked := true },
        ⟨.file "f" 0⟩) :=
  ⟨c4_lock_recovers_poison.1 ReaderState mPoisonedIn rfl,
   c4_lock_recovers_poison.2.1 wPoisonedIn "f" 0 mPoisonedIn rfl rfl⟩

/-- C8: a guard obtained from `lock()` reports the same introspection
results as the handle it came from; on the write side the stream predicate
is exposed under the (source's) name `is_stdin` and tests the `Stdout`
variant. -/
theorem c8_guard_introspection (wi : InWorld) (wo : OutWorld)
    (hi : Input) (ho : Output) :
    (∀ w' g, Input.lock wi hi = some (w', g) →
      g.is_file = hi.is_file ∧ g.path = hi.path ∧
      g.is_stdin = hi.is_stdin) ∧
    (∀ w' g, Output.lock wo ho = some (w', g) →
      g.is_file = ho.is_file ∧ g.path = ho.path ∧
      g.is_stdin = ho.is_stdout) := by
  constructor
  · intro w' g hg
    obtain ⟨ii⟩ := hi
    cases ii with
    | stdin =>
      cases hL : wi.stdinLocked <;> simp [Input.lock, hL] at hg
      obtain ⟨-, hg2⟩ := hg
      subst hg2
      exact ⟨rfl, rfl, rfl⟩
    | file p c =>
      rcases hc : wi.getCell c with _ | m
      · simp [Input.lock, hc] at hg
      · cases hm : m.locked with
        | true => simp [Input.lock, hc, lock_of_locked m hm] at hg
        | false =>
          simp [Input.lock, hc, lock_of_unlocked m hm] at hg
          obtain ⟨-, hg2⟩ := hg
          subst hg2
          exact ⟨rfl, rfl, rfl⟩
  · intro w' g hg
    obtain ⟨oi⟩ := ho
    cases oi with
    | stdout =>
      cases hL : wo.stdoutLocked <;> simp [Output.lock, hL] at hg
      obtain ⟨-, hg2⟩ := hg
      subst hg2
      exact ⟨rfl, rfl, rfl⟩
    | file p c =>
      rcases hc : wo.getCell c with _ | m
      · simp [Output.lock, hc] at hg
      · cases hm : m.locked with
        | true => simp [Output.lock, hc, lock_of_locked m hm] at hg
        | false =>
          simp [Output.lock, hc, lock_of_unlocked m hm] at hg
          obtain ⟨-, hg2⟩ := hg
          subst hg2
          exact ⟨rfl, rfl, rfl⟩

theorem c8_witness :
    ((⟨.stdin⟩ : LockedInput).is_file = Input.stdin.is_file ∧
     (⟨.stdin⟩ : LockedInput).path = Input.stdin.path ∧
     (⟨.stdin⟩ : LockedInput).is_stdin = Input.stdin.is_stdin) ∧
    ((⟨.stdout⟩ : LockedOutput).is_file = Output.stdout.is_file ∧
     (⟨.stdout⟩ : LockedOutput).path = Output.stdout.path ∧
     (⟨.stdout⟩ : LockedOutput).is_stdin = Output.stdout.is_stdout) :=
  ⟨(c8_guard_introspection wI0 wO0 Input.stdin Output.stdout).1
      { wI0 with stdinLocked := true } ⟨.stdin⟩ rfl,
   (c8_guard_introspection wI0 wO0 Input.stdin Output.stdout).2
      { wO0 with stdoutLocked := true } ⟨.stdout⟩ rfl⟩

/-- C9: every `Read` method on the unlocked `Input` and every `Write` method
on the unlocked `Output` acquires the shared lock, performs the operation
and releases the lock within that single call: the call equals locking,
performing the same operation through the guard, and dropping the guard,
with identical result and identical final process state. -/
theorem c9_unlocked_ops_are_lock_wrapped (wi : InWorld) (wo : OutWorld)
    (hi : Input) (ho : Output) (n : Nat) (ns : List Nat)
    (d : List Nat) (bufs : List (List Nat)) :
    Input.read wi hi n =
      Input.viaLock wi hi (fun w g => LockedInput.read w g n) ∧
    Input.read_vectored wi hi ns =
      Input.viaLock wi hi (fun w g => LockedInput.read_vectored w g ns) ∧
    Input.read_to_end wi hi =
      Input.viaLock wi hi (fun w g => LockedInput.read_to_end w g) ∧
    Input.read_to_string wi hi =
      Input.viaLock wi hi (fun w g => LockedInput.read_to_string w g) ∧
    Input.read_exact wi hi n =
      Input.viaLock wi hi (fun w g => LockedInput.read_exact w g n) ∧
    Output.write wo ho d =
      Output.viaLock wo ho (fun w g => LockedOutput.write w g d) ∧
    Output.write_vectored wo ho bufs =
      Output.viaLock wo ho (fun w g => LockedOutput.write_vectored w g bufs) ∧
    Output.write_all wo ho d =
      Output.viaLock wo ho (fun w g => LockedOutput.write_all w g d) ∧
    Output.flush wo ho =
      Output.viaLock wo ho (fun w g => LockedOutput.flush w g) :=
  ⟨withReader_eq_viaLock wi hi (readCore n),
   withReader_eq_viaLock wi hi (readVectoredCore ns),
   withReader_eq_viaLock wi hi readToEndCore,
   withReader_eq_viaLock wi hi readToStringCore,
   withReader_eq_viaLock wi hi (readExactCore n),
   withWriter_eq_viaLock wo ho (writeCore d),
   withWriter_eq_viaLock wo ho (writeVectoredCore bufs),
   withWriter_eq_viaLock wo ho (writeAllCore d),
   withWriter_eq_viaLock wo ho flushCore⟩

/-- Filesystem for the C1 failing input: no entry at `"out.txt"`, but its
parent directory exists and is writable, so a create/truncate open would
succeed there. -/
def fsC1 : FileSystem := ⟨[], ["out.txt"]⟩

/-- C1 (code bug): `Output::open` calls `File::open` — the read-mode open —
so on a nonexistent-but-creatable path it fails with `NotFound`, while the
write/create/truncate open described by the spec (and by the function's own
documentation, "creates a new `Output` instance that writes to it") would
succeed by creating the file. -/
theorem c1_open_read_mode_divergence :
    Output.openFile fsC1 wO0 "out.txt" = .error .notFound ∧
    fsOpenWrite fsC1 "out.txt" = .ok [] := by
  constructor <;> rfl

/-- Filesystem for the C6 failing input: `"ro.txt"` exists, is readable,
and is NOT writable. -/
def fsC6 : FileSystem := ⟨[("ro.txt", ⟨false, true, false, [104, 105]⟩)], []⟩

/-- C6 (code bug): on an existing readable-but-non-writable path,
`Output::open` (read-mode `File::open`) succeeds and hands out a full Sink
handle, while the write-mode open the claim describes fails with
`PermissionDenied` and would produce no handle. -/
theorem c6_open_succeeds_on_unwritable :
    Output.openFile fsC6 wO0 "ro.txt" =
      .ok (⟨.file "ro.txt" 0⟩,
           { wO0 with cells := [⟨false, false, ⟨false, [], [104, 105]⟩⟩] }) ∧
    fsOpenWrite fsC6 "ro.txt" = .error .permissionDenied := by
  constructor <;> rfl

/-! ## Sequential lock/write/drop cycles (claim C7) -/

/-- One write performed through a held guard, accumulating the result (the
`none` arm is unreachable for guards produced by `Output::lock`, whose cell
index is always live). -/
def writeStep (g : LockedOutput) (acc : OutWorld × List (Except IOErr Nat))
    (d : List Nat) : OutWorld × List (Except IOErr Nat) :=
  match LockedOutput.write acc.1 g d with
  | none => acc
  | some (w2, r) => (w2, acc.2 ++ [r])

/-- One sequential `lock()`/write…/drop cycle through a handle: acquire the
guard, perform the writes in order through it, drop the guard.  Returns the
final process state and the writes' results. -/
def Output.runCycle (w : OutWorld) (h : Output) (ws : List (List Nat)) :
    Option (OutWorld × List (Except IOErr Nat)) :=
  match Output.lock w h with
  | none => none
  | some (w1, g) =>
    let res := ws.foldl (writeStep g) (w1, [])
    some (LockedOutput.drop res.1 g, res.2)

/-- Rust `LineWriter::write` through a writable descriptor keeps it writable and
only ever appends to the underlying file. -/
theorem lwWrite_writable_file (st : LineWriterState) (d : List Nat)
    (hw : st.writable = true) :
    (lwWrite st d).2.writable = true ∧
    ∃ e, (lwWrite st d).2.file = st.file ++ e := by
  unfold lwWrite
  cases hpos : lastNewlinePos d with
  | none => exact ⟨hw, [], by simp⟩
  | some i =>
    constructor
    · simp [hw]
    · refine ⟨st.buf ++ d.take (i + 1), ?_⟩
      simp [hw]

/-- Folding writes through a held file guard keeps the cell present with
unchanged lock and poison state, keeps the descriptor writable, and only
appends to the underlying file. -/
theorem foldl_writeStep_inv (p : String) (c : Nat) :
    ∀ (ws : List (List Nat)) (w : OutWorld)
      (rs : List (Except IOErr Nat)) (m : MutexCell LineWriterState),
      w.getCell c = some m → m.data.writable = true →
      ∃ w' rs' m' e,
        ws.foldl (writeStep ⟨.file p c⟩) (w, rs) = (w', rs') ∧
        w'.getCell c = some m' ∧ m'.locked = m.locked ∧
        m'.poisoned = m.poisoned ∧ m'.data.writable = true ∧
        m'.data.file = m.data.file ++ e
  | [], w, rs, m, hc, hw => ⟨w, rs, m, [], rfl, hc, rfl, rfl, hw, by simp⟩
  | d :: ws, w, rs, m, hc, hw => by
    have hstep : writeStep ⟨.file p c⟩ (w, rs) d =
        (w.setCell c { m with data := (lwWrite m.data d).2 },
         rs ++ [(lwWrite m.data d).1]) := by
      simp [writeStep, LockedOutput.write, LockedOutput.withWriter, writeCore,
            hc]
    obtain ⟨hw', e0, hf0⟩ :=
      And.intro (lwWrite_writable_file m.data d hw).1
        (lwWrite_writable_file m.data d hw).2
    have hc' : (w.setCell c { m with data := (lwWrite m.data d).2 }).getCell c
        = some { m with data := (lwWrite m.data d).2 } :=
      outworld_getCell_setCell w c _ m hc
    obtain ⟨w', rs', m', e, hfold, hc2, hl2, hp2, hw2, hf2⟩ :=
      foldl_writeStep_inv p c ws
        (w.setCell c { m with data := (lwWrite m.data d).2 })
        (rs ++ [(lwWrite m.data d).1])
        { m with data := (lwWrite m.data d).2 } hc' hw'
    refine ⟨w', rs', m', e0 ++ e, ?_, hc2, hl2, hp2, hw2, ?_⟩
    · simpa [hstep] using hfold
    · simp only [hf2, hf0]
      simp [List.append_assoc]

/-- C7 (amended): for a File-variant Sink whose shared descriptor is open
for writing, at most one guard over the shared state exists at a time —
locking blocks whenever the cell is held — and two sequential
`lock()`/write…/drop cycles through clones of the handle append to the
underlying file strictly in lock-acquisition order: first everything cycle
one emitted, then everything cycle two emitted. -/
theorem c7_sequential_cycles_ordered (w : OutWorld) (p : String) (c : Nat)
    (m : MutexCell LineWriterState) (ws1 ws2 : List (List Nat))
    (hc : w.getCell c = some m) (hu : m.locked = false)
    (hw : m.data.writable = true) :
    (∀ (w' : OutWorld) (m' : MutexCell LineWriterState),
        w'.getCell c = some m' → m'.locked = true →
        Output.lock w' (Output.clone ⟨.file p c⟩) = none) ∧
    ∃ w1 rs1 w2 rs2 m1 m2 e1 e2,
      Output.runCycle w (Output.clone ⟨.file p c⟩) ws1 = some (w1, rs1) ∧
      Output.runCycle w1 (Output.clone ⟨.file p c⟩) ws2 = some (w2, rs2) ∧
      w1.getCell c = some m1 ∧ m1.locked = false ∧
      m1.data.file = m.data.file ++ e1 ∧
      w2.getCell c = some m2 ∧ m2.locked = false ∧
      m2.data.file = (m.data.file ++ e1) ++ e2 := by
  have runOne : ∀ (w0 : OutWorld) (m0 : MutexCell LineWriterState)
      (ws : List (List Nat)), w0.getCell c = some m0 → m0.locked = false →
      m0.data.writable = true →
      ∃ w' rs m', Output.runCycle w0 (Output.clone ⟨.file p c⟩) ws
          = some (w', rs) ∧
        w'.getCell c = some m' ∧ m'.locked = false ∧
        m'.data.writable = true ∧
        ∃ e, m'.data.file = m0.data.file ++ e := by
    intro w0 m0 ws hc0 hu0 hw0
    have hlock : Output.lock w0 (⟨.file p c⟩ : Output) =
        some (w0.setCell c { m0 with locked := true }, ⟨.file p c⟩) := by
      simp [Output.lock, hc0, lock_of_unlocked m0 hu0]
    have hc1 : (w0.setCell c { m0 with locked := true }).getCell c =
        some { m0 with locked := true } :=
      outworld_getCell_setCell w0 c _ m0 hc0
    obtain ⟨w', rs', m', e, hfold, hc2, hl2, hp2, hw2, hf2⟩ :=
      foldl_writeStep_inv p c ws (w0.setCell c { m0 with locked := true }) []
        { m0 with locked := true } hc1 hw0
    refine ⟨w'.setCell c { m' with locked := false }, rs',
      { m' with locked := false }, ?_, ?_, rfl, hw2, e, hf2⟩
    · simp [Output.runCycle, Output.clone, hlock, hfold,
            LockedOutput.drop, hc2]
    · exact outworld_getCell_setCell w' c _ m' hc2
  constructor
  · intro w' m' hc' hl'
    simp [Output.clone, Output.lock, hc', lock_of_locked m' hl']
  · obtain ⟨w1, rs1, m1, hrun1, hc1, hl1, hw1, e1, hf1⟩ :=
      runOne w m ws1 hc hu hw
    obtain ⟨w2, rs2, m2, hrun2, hc2, hl2, hw2, e2, hf2⟩ :=
      runOne w1 m1 ws2 hc1 hl1 hw1
    exact ⟨w1, rs1, w2, rs2, m1, m2, e1, e2, hrun1, hrun2, hc1, hl1, hf1,
      hc2, hl2, by simp [hf2, hf1]⟩

/-- Writable-descriptor world for the C7 amended-claim witness. -/
def wC7 : OutWorld := ⟨⟨true, [], []⟩, false, [⟨false, false, ⟨true, [], []⟩⟩]⟩

theorem c7_witness :
    (∀ (w' : OutWorld) (m' : MutexCell LineWriterState),
        w'.getCell 0 = some m' → m'.locked = true →
        Output.lock w' (Output.clone ⟨.file "f" 0⟩) = none) ∧
    ∃ w1 rs1 w2 rs2 m1 m2 e1 e2,
      Output.runCycle wC7 (Output.clone ⟨.file "f" 0⟩) [[97, 10]]
        = some (w1, rs1) ∧
      Output.runCycle w1 (Output.clone ⟨.file "f" 0⟩) [[98, 10]]
        = some (w2, rs2) ∧
      w1.getCell 0 = some m1 ∧ m1.locked = false ∧
      m1.data.file = ([] : List Nat) ++ e1 ∧
      w2.getCell 0 = some m2 ∧ m2.locked = false ∧
      m2.data.file = (([] : List Nat) ++ e1) ++ e2 :=
  c7_sequential_cycles_ordered wC7 "f" 0 ⟨false, false, ⟨true, [], []⟩⟩
    [[97, 10]] [[98, 10]] rfl rfl rfl

/-- Filesystem for the C7 counterexample: an existing writable, readable,
empty file. -/
def fsC7 : FileSystem := ⟨[("log.txt", ⟨false, true, true, []⟩)], []⟩

/-- C7 counterexample to the claim as stated: a File-variant Sink actually
produced by `Output::open` holds a read-only descriptor, so a sequential
`lock()`/write `"x\n"`/drop cycle does NOT make the bytes reach the
underlying file — the write fails with `EBADF` and the file stays empty. -/
theorem c7_counterexample :
    Output.openFile fsC7 wO0 "log.txt" =
      .ok (⟨.file "log.txt" 0⟩,
           { wO0 with cells := [⟨false, false, ⟨false, [], []⟩⟩] }) ∧
    Output.runCycle { wO0 with cells := [⟨false, false, ⟨false, [], []⟩⟩] }
        ⟨.file "log.txt" 0⟩ [[120, 10]] =
      some ({ wO0 with cells := [⟨false, false, ⟨false, [], []⟩⟩] },
            [.error .badDescriptor]) := by
  constructor <;> rfl

end ClapFile
